import Mathlib

/-!
Verification of the execution-orchestration subsystem of the Saint repository.

The definitions below are a shallow embedding of the JavaScript sources:

* `MCPExecutor` (src/unnamed/part_003): scheduler, workspace lifecycle,
  process supervision, result processing, artifact collection, summary tally;
* `StreamingService` (src/src/backend/streamingService.js): connection
  registry and broadcast.

Stateful JavaScript is embedded as explicit state passing; `Map` objects are
embedded as insertion-ordered association lists; fallible steps are `Except`
values; JavaScript numbers are embedded as `Rat` (or `Int`/`Nat` where the
source only ever holds integers). Timestamps are milliseconds since epoch.
-/

namespace Saint

/-! ## Basic data -/

/-- The `status` field computed by `runTest` (part_003, line 228). -/
inductive Status where
  | passed
  | failed
deriving DecidableEq, Repr

/-- The object resolved by the `close` handler of `runTest`
(part_003, lines 221-231), minus the raw `testData` back-reference.
Node hands the handler `code : number | null` (null when the process was
killed by a signal), hence `Option Int`. -/
structure RunResult where
  exitCode : Option Int
  output : String
  errorOutput : String
  duration : Rat
  startTime : Nat
  endTime : Nat
  status : Status
  sessionId : String
deriving DecidableEq, Repr

/-- A submitted test (`testData` plus the caller-supplied `sessionId`);
only the fields the scheduler inspects are kept. -/
structure ExecRequest where
  testId : String
  sessionId : String
deriving DecidableEq, Repr

/-- The record stored in `activeExecutions` by `executeTestNow`
(part_003, lines 42-47). -/
structure ActiveRec where
  executionId : String
  testId : String
  startTime : Nat
deriving DecidableEq, Repr

/-! ## The `activeExecutions` Map

Embedded as an insertion-ordered association list, matching the iteration
order and the update semantics of a JavaScript `Map`. -/

/-- `Map.set`: overwrite in place when the key is present, else append. -/
def mapSet (m : List (String × ActiveRec)) (k : String) (v : ActiveRec) :
    List (String × ActiveRec) :=
  if m.any (fun p => p.1 == k) then
    m.map (fun p => if p.1 == k then (k, v) else p)
  else
    m ++ [(k, v)]

/-- `Map.delete`: remove the entry with the given key, if any. -/
def mapDelete (m : List (String × ActiveRec)) (k : String) :
    List (String × ActiveRec) :=
  m.filter (fun p => p.1 != k)

/-! ## Scheduler state (the `MCPExecutor` instance fields)

`enqueuedLog` and `admittedLog` are ghost histories: the requests ever pushed
onto `executionQueue` (part_003, line 18) and the requests ever shifted off
its head and admitted by `processQueue` (line 523), each in order. -/

structure SchedState where
  activeExecutions : List (String × ActiveRec)
  executionQueue : List ExecRequest
  maxConcurrent : Nat
  enqueuedLog : List ExecRequest
  admittedLog : List ExecRequest
deriving DecidableEq, Repr

/-- The state built by the `MCPExecutor` constructor (part_003, lines 7-12). -/
def initState (maxConcurrentTests : Nat) : SchedState :=
  { activeExecutions := []
    executionQueue := []
    maxConcurrent := maxConcurrentTests
    enqueuedLog := []
    admittedLog := [] }

/-- The synchronous scheduler effect of `executeTest` (part_003, lines 14-34):
at capacity the request is appended to `executionQueue`; otherwise
`executeTestNow` runs at once and marks the session active (line 42).
`arec` is the fresh `ActiveExecution` record (uuid, test id, start time). -/
def executeTestStep (s : SchedState) (req : ExecRequest) (arec : ActiveRec) : SchedState :=
  if s.activeExecutions.length ≥ s.maxConcurrent then
    { s with
        executionQueue := s.executionQueue ++ [req]
        enqueuedLog := s.enqueuedLog ++ [req] }
  else
    { s with activeExecutions := mapSet s.activeExecutions req.sessionId arec }

/-- `processQueue` (part_003, lines 521-526): when the queue is non-empty and
there is spare capacity, shift the head and admit it via `executeTestNow`
(whose synchronous effect is marking the session active). -/
def processQueueStep (s : SchedState) (arec : ActiveRec) : SchedState :=
  match s.executionQueue with
  | [] => s
  | req :: rest =>
    if s.activeExecutions.length < s.maxConcurrent then
      { s with
          executionQueue := rest
          activeExecutions := mapSet s.activeExecutions req.sessionId arec
          admittedLog := s.admittedLog ++ [req] }
    else s

/-- The scheduler effect of a run completing, on the success path
(part_003, lines 70-73) and identically on the error path (lines 81-82):
delete the session from `activeExecutions`, then run `processQueue`. -/
def completeStep (s : SchedState) (sid : String) (arec : ActiveRec) : SchedState :=
  processQueueStep { s with activeExecutions := mapDelete s.activeExecutions sid } arec

/-- One atomic scheduler transition: a submission arriving, or a run
completing (successfully or not). -/
inductive SchedStep : SchedState → SchedState → Prop where
  | submit (s : SchedState) (req : ExecRequest) (arec : ActiveRec) :
      SchedStep s (executeTestStep s req arec)
  | complete (s : SchedState) (sid : String) (arec : ActiveRec) :
      SchedStep s (completeStep s sid arec)

/-- States reachable from the freshly constructed executor. -/
inductive Reachable (maxConcurrentTests : Nat) : SchedState → Prop where
  | init : Reachable maxConcurrentTests (initState maxConcurrentTests)
  | step {s t : SchedState} : Reachable maxConcurrentTests s → SchedStep s t →
      Reachable maxConcurrentTests t

/-- The scheduler invariant: bounded active set, and the whole enqueue
history equals the admission history followed by the requests still
waiting (so queue admissions happen in exactly enqueue order). -/
def SchedInv (s : SchedState) : Prop :=
  s.activeExecutions.length ≤ s.maxConcurrent ∧
  s.enqueuedLog = s.admittedLog ++ s.executionQueue

/-! ## Playwright result tree and summary tally -/

/-- A leaf test entry of the structured `results.json` document; only the
`outcome` field is inspected by the tally (part_003, lines 495-500). -/
structure PwTest where
  outcome : String
deriving DecidableEq, Repr

/-- A spec node: carries its leaf tests (`spec.tests`, absent modelled
as `[]`). -/
structure PwSpec where
  tests : List PwTest
deriving DecidableEq, Repr

/-- A suite node: its specs and its child suites (`suite.specs` and
`suite.suites`, absent fields modelled as `[]`). Suites nest to arbitrary
depth. -/
inductive PwSuite where
  | mk (specs : List PwSpec) (suites : List PwSuite)

/-- The four counting fields of the summary object that
`countTestResults` mutates (part_003, lines 461-464 and 487-511). -/
structure TestCounts where
  testCount : Nat
  passedCount : Nat
  failedCount : Nat
  skippedCount : Nat
deriving DecidableEq, Repr

/-- The per-test body of the tally loop (part_003, lines 492-501):
`testCount` is always incremented; then exactly one of the three outcome
branches may fire. -/
def countTestOne (c : TestCounts) (t : PwTest) : TestCounts :=
  let c1 := { c with testCount := c.testCount + 1 }
  if t.outcome == "expected" then
    { c1 with passedCount := c1.passedCount + 1 }
  else if t.outcome == "unexpected" then
    { c1 with failedCount := c1.failedCount + 1 }
  else if t.outcome == "skipped" then
    { c1 with skippedCount := c1.skippedCount + 1 }
  else c1

mutual

/-- `countTestResults(suites, summary)` (part_003, lines 487-511): walk the
list of suites, tallying each in turn. -/
def countTestResults : List PwSuite → TestCounts → TestCounts
  | [], c => c
  | su :: rest, c => countTestResults rest (countSuiteOne su c)

/-- One iteration of the outer `for (const suite of suites)` loop: tally the
tests under this suite (specs then nested suites). -/
def countSuiteOne : PwSuite → TestCounts → TestCounts
  | .mk specs suites, c =>
    let c1 := specs.foldl (fun acc sp => sp.tests.foldl countTestOne acc) c
    countTestResults suites c1

end

mutual

/-- Spec-side reading helper: every leaf test under a list of suites, in
visit order of the tally. -/
def leafTestsList : List PwSuite → List PwTest
  | [] => []
  | su :: rest => leafTestsOf su ++ leafTestsList rest

/-- Spec-side reading helper: every leaf test under one suite. -/
def leafTestsOf : PwSuite → List PwTest
  | .mk specs suites => (specs.map PwSpec.tests).flatten ++ leafTestsList suites

end

/-- Modelled from the words of the spec (section 4.4): the expected tally of
a list of leaf tests starting from counts `c0` — one `testCount` per leaf,
passed iff outcome is `expected`, failed iff `unexpected`, skipped iff
`skipped`. Used to compare the source tally against the spec. -/
def specTallyOf (c0 : TestCounts) (ts : List PwTest) : TestCounts :=
  { testCount := c0.testCount + ts.length
    passedCount := c0.passedCount + (ts.filter (fun t => t.outcome == "expected")).length
    failedCount := c0.failedCount + (ts.filter (fun t => t.outcome == "unexpected")).length
    skippedCount := c0.skippedCount + (ts.filter (fun t => t.outcome == "skipped")).length }

/-- Modelled from the words of claim C7: a leaf counts as skipped whenever
its outcome is neither the expected one nor unexpected (the claim says
"skipped otherwise"). -/
def claimTallyOf (c0 : TestCounts) (ts : List PwTest) : TestCounts :=
  { testCount := c0.testCount + ts.length
    passedCount := c0.passedCount + (ts.filter (fun t => t.outcome == "expected")).length
    failedCount := c0.failedCount + (ts.filter (fun t => t.outcome == "unexpected")).length
    skippedCount := c0.skippedCount +
      (ts.filter (fun t => t.outcome != "expected" && t.outcome != "unexpected")).length }

/-! ## Artifacts and the execution summary -/

/-- One artifact record pushed by `processArtifacts`
(part_003, lines 369-375 etc.). -/
structure ArtifactEntry where
  filename : String
  path : String
  url : String
  size : Nat
deriving DecidableEq, Repr

/-- An HTML report record (part_003, lines 418-423). -/
structure ReportEntry where
  path : String
  url : String
deriving DecidableEq, Repr

/-- The manifest returned by `processArtifacts` (part_003, lines 354-359). -/
structure ArtifactLists where
  screenshots : List ArtifactEntry
  videos : List ArtifactEntry
  traces : List ArtifactEntry
  reports : List ReportEntry
deriving DecidableEq, Repr

def emptyArtifacts : ArtifactLists :=
  { screenshots := [], videos := [], traces := [], reports := [] }

/-- The parsed `results.json` document (`result.detailedResults`): the tally
only looks at its optional `suites` field (part_003, line 474). -/
structure DetailedResults where
  suites : Option (List PwSuite)

structure ArtifactCounts where
  screenshots : Nat
  videos : Nat
  traces : Nat
  reports : Nat
deriving DecidableEq, Repr

structure PerfMetrics where
  executionTime : Rat
  avgTestTime : Rat
deriving DecidableEq, Repr

/-- The summary object built by `generateExecutionSummary`
(part_003, lines 456-485). -/
structure ExecSummary where
  status : Status
  duration : Rat
  exitCode : Option Int
  counts : TestCounts
  artifactCounts : ArtifactCounts
  performance : PerfMetrics

/-- The `result` object as progressively extended by `processResults`:
the raw run result plus the optional fields the source attaches to it. -/
structure ProcessedResult where
  base : RunResult
  detailedResults : Option DetailedResults
  artifacts : Option ArtifactLists
  summary : Option ExecSummary
  processingError : Option String

/-- `generateExecutionSummary(result)` (part_003, lines 456-485): counts
start at zero, `countTestResults` runs only when `detailedResults.suites`
is present, artifact counts default to 0 for absent lists, and
`avgTestTime` is `duration / testCount` guarded by `testCount > 0`. -/
def generateExecutionSummary (r : ProcessedResult) : ExecSummary :=
  let counts0 : TestCounts := ⟨0, 0, 0, 0⟩
  let counts :=
    match r.detailedResults with
    | some d =>
      match d.suites with
      | some suites => countTestResults suites counts0
      | none => counts0
    | none => counts0
  { status := r.base.status
    duration := r.base.duration
    exitCode := r.base.exitCode
    counts := counts
    artifactCounts :=
      { screenshots := (r.artifacts.map (fun a => a.screenshots.length)).getD 0
        videos := (r.artifacts.map (fun a => a.videos.length)).getD 0
        traces := (r.artifacts.map (fun a => a.traces.length)).getD 0
        reports := (r.artifacts.map (fun a => a.reports.length)).getD 0 }
    performance :=
      { executionTime := r.base.duration
        avgTestTime :=
          if counts.testCount > 0 then r.base.duration / (counts.testCount : Rat) else 0 } }

/-! ## `processResults` -/

/-- Outcomes of the fallible filesystem steps inside the `try` block of
`processResults` (part_003, lines 320-351). `processArtifacts` cannot throw
(it catches internally, lines 426-428), so its value is plain data. -/
structure ProcOutcomes where
  ensureDir : Except String Unit
  jsonExists : Bool
  readJson : Except String DetailedResults
  artifacts : ArtifactLists
  writeResult : Except String Unit

/-- The durable result record path written at part_003, line 341. -/
def resultFilePath (resultsRoot sessionId : String) : String :=
  resultsRoot ++ "/" ++ sessionId ++ "-result.json"

/-- `processResults(result, sessionId, executionDir)` (part_003,
lines 320-351). Returns the (possibly extended) result object together with
the list of durable result records actually written. Any throw inside the
`try` lands in the `catch`, which attaches `processingError` and returns
the result as mutated so far — without reaching the `writeJson` call. -/
def processResults (r : RunResult) (resultsRoot sessionId : String) (oc : ProcOutcomes) :
    ProcessedResult × List String :=
  match oc.ensureDir with
  | .error e =>
    ({ base := r, detailedResults := none, artifacts := none, summary := none,
       processingError := some e }, [])
  | .ok _ =>
    match (if oc.jsonExists then oc.readJson.map some else Except.ok none) with
    | .error e =>
      ({ base := r, detailedResults := none, artifacts := none, summary := none,
         processingError := some e }, [])
    | .ok det =>
      let withArts : ProcessedResult :=
        { base := r, detailedResults := det, artifacts := some oc.artifacts,
          summary := none, processingError := none }
      let full : ProcessedResult :=
        { withArts with summary := some (generateExecutionSummary withArts) }
      match oc.writeResult with
      | .error e => ({ full with processingError := some e }, [])
      | .ok _ => (full, [resultFilePath resultsRoot sessionId])

/-! ## `executeTestNow` with its workspace and settlement effects -/

/-- How the async promise of `executeTestNow` settles. -/
inductive Settlement where
  | resolve (r : ProcessedResult)
  | reject (e : String)

/-- Outcomes of the awaited sub-steps of `executeTestNow`:
`createExecutionEnvironment` and `runTest` may reject; `processResults`
and `cleanup` never do. -/
structure ExecOutcomes where
  createEnv : Except String Unit
  runTest : Except String RunResult
  proc : ProcOutcomes

/-- The workspace path of a session (part_003, line 89). -/
def executionDirOf (testsRoot sessionId : String) : String :=
  testsRoot ++ "/execution-" ++ sessionId

/-- `executeTestNow` (part_003, lines 36-86), tracking the scheduler state,
the set of existing workspace directories (`fs`), and the settlements of
the returned promise. The success path runs `createExecutionEnvironment`,
`runTest`, `processResults`, `cleanup` (which removes the directory), then
deletes the active entry and runs `processQueue` before resolving; the
`catch` path (lines 77-85) deletes the active entry, runs `processQueue`
and rethrows — it never calls `cleanup`. `promRec` is the active record a
queue promotion would create. -/
def executeTestNowRun (s : SchedState) (fs0 : List String) (testsRoot resultsRoot : String)
    (req : ExecRequest) (arec : ActiveRec) (oc : ExecOutcomes) (promRec : ActiveRec) :
    SchedState × List String × List Settlement :=
  let s1 := { s with activeExecutions := mapSet s.activeExecutions req.sessionId arec }
  let dir := executionDirOf testsRoot req.sessionId
  match oc.createEnv with
  | .error e =>
    (completeStep s1 req.sessionId promRec, fs0, [Settlement.reject e])
  | .ok _ =>
    let fs1 := if dir ∈ fs0 then fs0 else fs0 ++ [dir]
    match oc.runTest with
    | .error e =>
      (completeStep s1 req.sessionId promRec, fs1, [Settlement.reject e])
    | .ok runRes =>
      let pr := processResults runRes resultsRoot req.sessionId oc.proc
      let fs2 := fs1.filter (fun d => d != dir)
      (completeStep s1 req.sessionId promRec, fs2, [Settlement.resolve pr.1])

/-! ## Lexical scoping of `runTest` (the shadowed `process` constant)

A tiny fragment of JavaScript scoping semantics, enough to settle how the
identifier `process` resolves inside the `then` callback of `runTest`
(part_003, lines 180-187): a `const` declaration hoists an uninitialized
binding to the top of its block, and reading it before its initializer has
completed throws a ReferenceError (the temporal dead zone). -/

inductive JsVal where
  | vstr (s : String)
  | vnum (n : Rat)
  | varr (elems : List JsVal)
  | vobj (fields : List (String × JsVal))
  | vundefined

inductive VarBinding where
  | uninit
  | val (v : JsVal)

abbrev Scope := List (String × VarBinding)

abbrev LexEnv := List Scope

/-- Identifier resolution: innermost scope first; an uninitialized `const`
binding shadows outer bindings and throws on access. -/
def lookupVar : LexEnv → String → Except String JsVal
  | [], x => .error ("ReferenceError: " ++ x ++ " is not defined")
  | sc :: outer, x =>
    match (sc.find? (fun p => p.1 == x)).map (fun p => p.2) with
    | some VarBinding.uninit =>
      .error ("ReferenceError: Cannot access " ++ x ++ " before initialization")
    | some (VarBinding.val v) => .ok v
    | none => lookupVar outer x

/-- Property read `v.name`, yielding `undefined` when absent. -/
def getField (v : JsVal) (name : String) : JsVal :=
  match v with
  | .vobj fs => (((fs.find? (fun p => p.1 == name)).map (fun p => p.2)).getD .vundefined)
  | _ => .vundefined

/-- Object-literal field list with later entries overriding earlier ones,
as `{ ...a, k: v }` does. -/
def setField (fs : List (String × JsVal)) (k : String) (v : JsVal) :
    List (String × JsVal) :=
  if fs.any (fun p => p.1 == k) then
    fs.map (fun p => if p.1 == k then (k, v) else p)
  else
    fs ++ [(k, v)]

def objFields : JsVal → List (String × JsVal)
  | .vobj fs => fs
  | _ => []

/-- The argument array of the runner spawn (part_003, line 182). -/
def runnerArgs : List JsVal :=
  [.vstr "playwright", .vstr "test", .vstr "--config", .vstr "playwright.config.ts"]

/-- The block scope of the `then` callback body at the instant the spawn
argument list is evaluated: `args` (line 182) is already initialized; the
`const process` being declared on line 183 is still in its temporal dead
zone. -/
def thenCallbackScope : Scope :=
  [("args", VarBinding.val (.varr runnerArgs)), ("process", VarBinding.uninit)]

/-- The options object literal passed to `spawn` (part_003, lines 184-187):
`cwd`, `stdio`, and an `env` built by spreading `process.env` and adding
`CI`. Reading `process` happens first and resolves in the given
environment. -/
def evalSpawnOptions (env : LexEnv) (executionDir : String) : Except String JsVal :=
  match lookupVar env "process" with
  | .error e => .error e
  | .ok p =>
    .ok (.vobj
      [("cwd", .vstr executionDir),
       ("stdio", .vstr "pipe"),
       ("env", .vobj (setField (objFields (getField p "env")) "CI" (.vstr "true")))])

/-- A call to `child_process.spawn` that actually happened. -/
structure SpawnCall where
  cmd : String
  args : List JsVal
  options : JsVal

/-- How the promise created by `runTest` stands after the synchronous part
of the `then` callback: either already rejected (a throw reached the
`.catch(reject)` at line 258, or the install promise rejected), or a
runner process is up and the promise awaits its events. -/
inductive RunPhase where
  | rejectedRun (e : String)
  | runningProcess

/-- The statement `const process = spawn(..)` (part_003, lines 183-187):
the arguments of `spawn` are evaluated before `spawn` can be called, so an
evaluation error means no process is spawned. -/
def evalSpawnStatement (outer : LexEnv) (executionDir : String) :
    List SpawnCall × RunPhase :=
  match evalSpawnOptions (thenCallbackScope :: outer) executionDir with
  | .error e => ([], .rejectedRun e)
  | .ok opts => ([{ cmd := "npx", args := runnerArgs, options := opts }], .runningProcess)

/-- `runTest` (part_003, lines 176-260) up to the point where the runner
process would start: if `installDependencies` rejected, the `.catch(reject)`
at line 258 rejects the promise; otherwise the `then` callback runs the
spawn statement, and a throw inside it also lands in the `.catch(reject)`. -/
def runTestModel (installOutcome : Except String Unit) (outer : LexEnv)
    (executionDir : String) : List SpawnCall × RunPhase :=
  match installOutcome with
  | .error e => ([], .rejectedRun e)
  | .ok _ => evalSpawnStatement outer executionDir

/-- The usual outer environment at the call site: `process` bound to the
Node global process object (with some `env` fields). -/
def nodeGlobalScope (envFields : List (String × JsVal)) : Scope :=
  [("process", VarBinding.val (.vobj [("env", .vobj envFields)]))]

/-! ## Runner process event handlers -/

/-- The lifecycle and output events the executor broadcasts. -/
inductive ExecEvent where
  | executionQueued (sessionId : String) (position : Nat)
  | executionStarted (sessionId : String)
  | depInstallStarted (sessionId : String)
  | depOutput (sessionId : String) (chunk : String)
  | depErrorChunk (sessionId : String) (chunk : String)
  | depInstallCompleted (sessionId : String)
  | testOutput (sessionId : String) (chunk : String)
  | testErrorChunk (sessionId : String) (chunk : String)
  | testCompleted (sessionId : String) (status : Status)
  | testExecutionError (sessionId : String) (message : String)
deriving DecidableEq, Repr

/-- The `close` handler of the runner process (part_003, lines 217-245):
builds the result record and broadcasts `test-completed`. -/
def closeHandler (code : Option Int) (startTime endTime : Nat)
    (output errorOutput sessionId : String) : RunResult × List ExecEvent :=
  let result : RunResult :=
    { exitCode := code
      output := output
      errorOutput := errorOutput
      duration := (endTime : Rat) - (startTime : Rat)
      startTime := startTime
      endTime := endTime
      status := if code = some 0 then Status.passed else Status.failed
      sessionId := sessionId }
  (result, [ExecEvent.testCompleted sessionId result.status])

/-- The `error` handler of the runner process (part_003, lines 247-256):
broadcasts `test-execution-error` and rejects. -/
def spawnErrorHandler (sessionId e : String) : List ExecEvent × RunPhase :=
  ([ExecEvent.testExecutionError sessionId e], RunPhase.rejectedRun e)

/-- The `close` handler of the `npm install` process (part_003,
lines 301-312): code 0 broadcasts `dependency-installation-completed` and
resolves; any other code rejects with a descriptive error, broadcasting
nothing. -/
def installCloseHandler (sessionId : String) (code : Int) :
    List ExecEvent × Except String Unit :=
  if code = 0 then
    ([ExecEvent.depInstallCompleted sessionId], Except.ok ())
  else
    ([], Except.error ("Dependency installation failed with exit code " ++ toString code))

/-- The `error` handler of the `npm install` process (part_003,
lines 314-316): a bare rejection. -/
def installErrorHandler (e : String) : List ExecEvent × Except String Unit :=
  ([], Except.error e)

/-! ## Artifact naming -/

/-- The renaming rule applied when copying a discovered artifact into
durable storage (part_003, lines 365, 381, 398). -/
def artifactTargetName (sessionId originalName : String) : String :=
  sessionId ++ "-" ++ originalName

/-- The durable names produced for one extension class of one execution
(the loop bodies of `processArtifacts`). -/
def artifactTargetNames (sessionId : String) (baseNames : List String) : List String :=
  baseNames.map (artifactTargetName sessionId)

/-! ## `StreamingService.broadcast` -/

/-- The per-connection record kept in `this.connections`
(streamingService.js, lines 10-15), plus `sendOk`: whether a
`ws.send` call on this connection would succeed (false models a throwing
transport). `readyState = 1` is WebSocket.OPEN. -/
structure WsConn where
  connected : Bool
  readyState : Nat
  sendOk : Bool
deriving DecidableEq, Repr

/-- A connection is live for sending: `connection.connected &&
connection.ws.readyState === 1` (streamingService.js, line 81). -/
def liveAndOpen (c : WsConn) : Bool :=
  c.connected && c.readyState == 1

/-- `broadcast` (streamingService.js, lines 74-90) over the connection
registry: every live open connection is sent the message; a throwing send
is caught and that connection alone is removed (`removeConnection`);
connections that are not live and open are skipped and kept. Returns the
registry afterwards and the ids delivered to, in iteration order. -/
def broadcastPass : List (String × WsConn) → List (String × WsConn) × List String
  | [] => ([], [])
  | (cid, c) :: rest =>
    let next := broadcastPass rest
    if liveAndOpen c then
      if c.sendOk then ((cid, c) :: next.1, cid :: next.2)
      else next
    else ((cid, c) :: next.1, next.2)

/-- `sendToChannel` (streamingService.js, lines 93-114) over the channel's
subscriber set and the connection registry: each subscriber id is looked up
in `this.connections`; a missing entry, a `connected === false` entry, or a
non-open transport is skipped (the registry untouched); a live open
connection is sent the message, and a throwing send removes that connection
alone (`removeConnection`). Returns the registry afterwards and the ids
delivered to, in subscriber order. -/
def sendToChannelPass : List String → List (String × WsConn) →
    List (String × WsConn) × List String
  | [], reg => (reg, [])
  | cid :: rest, reg =>
    match reg.find? (fun p => p.1 == cid) with
    | none => sendToChannelPass rest reg
    | some pe =>
      if liveAndOpen pe.2 then
        if pe.2.sendOk then
          let next := sendToChannelPass rest reg
          (next.1, cid :: next.2)
        else
          sendToChannelPass rest (reg.filter (fun q => q.1 != cid))
      else sendToChannelPass rest reg

/-- The guard of `sendToChannel` (streamingService.js, lines 94-95): a
channel with no subscriber set delivers nothing and changes nothing. -/
def sendToChannel (subscriptions : List (String × List String)) (channel : String)
    (reg : List (String × WsConn)) : List (String × WsConn) × List String :=
  match subscriptions.find? (fun q => q.1 == channel) with
  | none => (reg, [])
  | some entry => sendToChannelPass entry.2 reg

/-- Spec-side reading: a subscriber id receives a channel send exactly when
it resolves in the registry to a connection that is marked connected, has
an open transport, and whose send succeeds. -/
def chanDeliverable (reg : List (String × WsConn)) (cid : String) : Bool :=
  match reg.find? (fun p => p.1 == cid) with
  | some pe => liveAndOpen pe.2 && pe.2.sendOk
  | none => false

/-- Spec-side reading: a registry entry is pruned by a channel send exactly
when it is subscribed, live and open, and its send throws. -/
def chanPruned (subs : List String) (p : String × WsConn) : Bool :=
  subs.contains p.1 && liveAndOpen p.2 && !p.2.sendOk

/-! ## Demonstration inputs -/

def demoRec : ActiveRec := { executionId := "e0", testId := "t0", startTime := 0 }

def demoReq1 : ExecRequest := { testId := "t1", sessionId := "s1" }

def demoReq2 : ExecRequest := { testId := "t2", sessionId := "s2" }

def demoReq3 : ExecRequest := { testId := "t3", sessionId := "s3" }

/-- A concrete history: capacity 1; submit three requests (the first is
admitted, the next two queue up), then the first run completes, promoting
the head of the queue. -/
def demoState : SchedState :=
  completeStep
    (executeTestStep
      (executeTestStep
        (executeTestStep (initState 1) demoReq1 demoRec)
        demoReq2 demoRec)
      demoReq3 demoRec)
    "s1" demoRec

def demoProcOutcomes : ProcOutcomes :=
  { ensureDir := Except.ok ()
    jsonExists := false
    readJson := Except.error "unused"
    artifacts := emptyArtifacts
    writeResult := Except.ok () }

/-- Sub-step outcomes of an execution whose dependency installation fails. -/
def demoFailOutcomes : ExecOutcomes :=
  { createEnv := Except.ok ()
    runTest := Except.error "Dependency installation failed with exit code 1"
    proc := demoProcOutcomes }

/-- Sub-step outcomes of an execution whose run resolves normally. -/
def demoOkOutcomes : ExecOutcomes :=
  { createEnv := Except.ok ()
    runTest := Except.ok
      { exitCode := some 0, output := "", errorOutput := "", duration := 5,
        startTime := 0, endTime := 5, status := Status.passed, sessionId := "s1" }
    proc := demoProcOutcomes }

/-- The ReferenceError message of the temporal-dead-zone read of `process`. -/
def tdzMessage : String :=
  "ReferenceError: Cannot access process before initialization"

/-- A run result as resolved by a passing run. -/
def demoRunResult : RunResult :=
  { exitCode := some 0, output := "", errorOutput := "", duration := 5,
    startTime := 0, endTime := 5, status := Status.passed, sessionId := "s1" }

/-- Processing outcomes where the structured result document exists but
fails to parse. -/
def demoReadFailOutcomes : ProcOutcomes :=
  { ensureDir := Except.ok ()
    jsonExists := true
    readJson := Except.error "Unexpected token o in JSON at position 1"
    artifacts := emptyArtifacts
    writeResult := Except.ok () }

/-- A suite whose one leaf test has the outcome `flaky` (a real Playwright
outcome that is neither `expected`, `unexpected` nor `skipped`). -/
def flakySuite : PwSuite :=
  PwSuite.mk [{ tests := [{ outcome := "flaky" }] }] []

/-- A two-level tree: a root suite whose child suite carries two leaf
tests (outcomes `expected` and `unexpected`). -/
def demoTreeA : PwSuite :=
  PwSuite.mk []
    [PwSuite.mk [{ tests := [{ outcome := "expected" }, { outcome := "unexpected" }] }] []]

/-- A sibling root suite with one `expected` leaf, bringing the tree to
three leaves: two expected, one unexpected. -/
def demoTreeB : PwSuite :=
  PwSuite.mk [{ tests := [{ outcome := "expected" }] }] []

/-- A registry entry whose transport is gone (`readyState` 3 = CLOSED)
but which is still present in the connection map. -/
def goneConn : WsConn := { connected := true, readyState := 3, sendOk := true }

/-- A healthy open connection. -/
def liveConn : WsConn := { connected := true, readyState := 1, sendOk := true }

def demoRegistry : List (String × WsConn) := [("c1", goneConn), ("c2", liveConn)]

/-! ## Helper lemmas: scheduler invariant -/

theorem mapSet_length_le (m : List (String × ActiveRec)) (k : String) (v : ActiveRec) :
    (mapSet m k v).length ≤ m.length + 1 := by
  unfold mapSet
  by_cases h : m.any (fun p => p.1 == k)
  · simp [h]
  · simp [h]

theorem mapDelete_length_le (m : List (String × ActiveRec)) (k : String) :
    (mapDelete m k).length ≤ m.length := by
  unfold mapDelete
  exact List.length_filter_le _ m

theorem schedInv_init (m : Nat) : SchedInv (initState m) := by
  constructor <;> simp [initState]

theorem schedInv_executeTestStep (s : SchedState) (req : ExecRequest) (arec : ActiveRec)
    (h : SchedInv s) : SchedInv (executeTestStep s req arec) := by
  obtain ⟨hlen, hlog⟩ := h
  unfold executeTestStep
  by_cases hc : s.activeExecutions.length ≥ s.maxConcurrent
  · simp only [hc, if_pos]
    refine ⟨hlen, ?_⟩
    simp [hlog]
  · simp only [hc, if_neg, not_false_iff]
    refine ⟨?_, hlog⟩
    have h1 := mapSet_length_le s.activeExecutions req.sessionId arec
    show (mapSet s.activeExecutions req.sessionId arec).length ≤ s.maxConcurrent
    omega

theorem schedInv_processQueueStep (s : SchedState) (arec : ActiveRec)
    (h : SchedInv s) : SchedInv (processQueueStep s arec) := by
  obtain ⟨hlen, hlog⟩ := h
  unfold processQueueStep
  match hq : s.executionQueue with
  | [] => exact ⟨hlen, hlog⟩
  | req :: rest =>
    by_cases hc : s.activeExecutions.length < s.maxConcurrent
    · simp only [hc, if_pos]
      constructor
      · have h1 := mapSet_length_le s.activeExecutions req.sessionId arec
        simp only
        omega
      · simp only
        rw [hlog, hq]
        simp
    · simp only [hc, if_neg, not_false_iff]
      exact ⟨hlen, hlog⟩

theorem schedInv_completeStep (s : SchedState) (sid : String) (arec : ActiveRec)
    (h : SchedInv s) : SchedInv (completeStep s sid arec) := by
  unfold completeStep
  apply schedInv_processQueueStep
  obtain ⟨hlen, hlog⟩ := h
  refine ⟨?_, hlog⟩
  have h1 := mapDelete_length_le s.activeExecutions sid
  simp only
  omega

theorem schedInv_of_reachable {m : Nat} {s : SchedState}
    (h : Reachable m s) : SchedInv s := by
  induction h with
  | init => exact schedInv_init m
  | step _ hstep ih =>
    cases hstep with
    | submit req arec => exact schedInv_executeTestStep _ req arec ih
    | complete sid arec => exact schedInv_completeStep _ sid arec ih

/-- When the active set is at (or beyond) capacity, `executeTest` only
appends to the queue tail: the active set is untouched. -/
theorem executeTestStep_full (s : SchedState) (req : ExecRequest) (arec : ActiveRec)
    (h : s.activeExecutions.length ≥ s.maxConcurrent) :
    (executeTestStep s req arec).executionQueue = s.executionQueue ++ [req] ∧
    (executeTestStep s req arec).activeExecutions = s.activeExecutions ∧
    (executeTestStep s req arec).enqueuedLog = s.enqueuedLog ++ [req] := by
  unfold executeTestStep
  simp [h]

/-- `processQueue` removes at most one request, and only the head; when it
does, that head is exactly the next admission. -/
theorem processQueueStep_pops_head (s : SchedState) (arec : ActiveRec) :
    ((processQueueStep s arec).executionQueue = s.executionQueue ∧
     (processQueueStep s arec).admittedLog = s.admittedLog) ∨
    (∃ req rest, s.executionQueue = req :: rest ∧
      (processQueueStep s arec).executionQueue = rest ∧
      (processQueueStep s arec).admittedLog = s.admittedLog ++ [req]) := by
  unfold processQueueStep
  match hq : s.executionQueue with
  | [] => exact Or.inl ⟨hq, rfl⟩
  | req :: rest =>
    by_cases hc : s.activeExecutions.length < s.maxConcurrent
    · right
      exact ⟨req, rest, rfl, by simp [hc], by simp [hc]⟩
    · left
      constructor
      · simp only [hc, if_neg, not_false_iff]
        exact hq
      · simp [hc]

theorem completeStep_pops_head (s : SchedState) (sid : String) (arec : ActiveRec) :
    ((completeStep s sid arec).executionQueue = s.executionQueue ∧
     (completeStep s sid arec).admittedLog = s.admittedLog) ∨
    (∃ req rest, s.executionQueue = req :: rest ∧
      (completeStep s sid arec).executionQueue = rest ∧
      (completeStep s sid arec).admittedLog = s.admittedLog ++ [req]) := by
  unfold completeStep
  exact processQueueStep_pops_head
    { s with activeExecutions := mapDelete s.activeExecutions sid } arec

theorem demoState_reachable : Reachable 1 demoState :=
  Reachable.step
    (Reachable.step
      (Reachable.step
        (Reachable.step Reachable.init
          (SchedStep.submit _ demoReq1 demoRec))
        (SchedStep.submit _ demoReq2 demoRec))
      (SchedStep.submit _ demoReq3 demoRec))
    (SchedStep.complete _ "s1" demoRec)

/-! ## Claim C1 -/

/-- C1: in every reachable scheduler state the active set holds at most
`maxConcurrentTests` entries; a submission arriving with the set full is
appended to the queue tail (leaving the active set untouched); on a
completion at most the queue head is removed and admitted; and the enqueue
history always equals the admission history followed by the waiting queue,
so queued requests are admitted in exactly submission order (strict FIFO). -/
theorem executor_capacity_and_fifo {m : Nat} {s : SchedState} (h : Reachable m s) :
    s.activeExecutions.length ≤ s.maxConcurrent ∧
    s.enqueuedLog = s.admittedLog ++ s.executionQueue ∧
    (∀ req arec, s.activeExecutions.length ≥ s.maxConcurrent →
      (executeTestStep s req arec).executionQueue = s.executionQueue ++ [req] ∧
      (executeTestStep s req arec).activeExecutions = s.activeExecutions) ∧
    (∀ sid arec,
      ((completeStep s sid arec).executionQueue = s.executionQueue ∧
       (completeStep s sid arec).admittedLog = s.admittedLog) ∨
      (∃ req rest, s.executionQueue = req :: rest ∧
        (completeStep s sid arec).executionQueue = rest ∧
        (completeStep s sid arec).admittedLog = s.admittedLog ++ [req])) := by
  obtain ⟨hlen, hlog⟩ := schedInv_of_reachable h
  refine ⟨hlen, hlog, ?_, ?_⟩
  · intro req arec hfull
    obtain ⟨h1, h2, _⟩ := executeTestStep_full s req arec hfull
    exact ⟨h1, h2⟩
  · intro sid arec
    exact completeStep_pops_head s sid arec

/-- Witness for C1: the invariant and FIFO discipline evaluated on the
concrete four-step history `demoState`. -/
theorem executor_capacity_and_fifo_witness :
    demoState.activeExecutions.length ≤ demoState.maxConcurrent ∧
    demoState.enqueuedLog = demoState.admittedLog ++ demoState.executionQueue :=
  ⟨(executor_capacity_and_fifo demoState_reachable).1,
   (executor_capacity_and_fifo demoState_reachable).2.1⟩

/-! ## Claim C2 -/

theorem admitted_count_le_enqueued {m : Nat} {s : SchedState}
    (h : Reachable m s) (req : ExecRequest) :
    s.admittedLog.count req ≤ s.enqueuedLog.count req := by
  obtain ⟨_, hlog⟩ := schedInv_of_reachable h
  rw [hlog, List.count_append]
  omega

theorem executeTestNowRun_settles_once (s : SchedState) (fs0 : List String)
    (testsRoot resultsRoot : String) (req : ExecRequest) (arec : ActiveRec)
    (oc : ExecOutcomes) (promRec : ActiveRec) :
    ((executeTestNowRun s fs0 testsRoot resultsRoot req arec oc promRec).2.2).length = 1 := by
  unfold executeTestNowRun
  cases hc : oc.createEnv with
  | error e => simp
  | ok u =>
    cases hr : oc.runTest with
    | error e => simp
    | ok r => simp

/-- C2: every admitted request yields exactly one settlement — for every
combination of sub-step outcomes, the promise of `executeTestNow` settles
exactly once (with a resolved result or a propagated error, never zero or
two settlements); and no queued request is ever admitted more often than it
was enqueued (no duplicate admissions). -/
theorem one_settlement_per_admission {m : Nat} {s : SchedState}
    (h : Reachable m s) :
    (∀ (fs0 : List String) (testsRoot resultsRoot : String) (req : ExecRequest)
      (arec : ActiveRec) (oc : ExecOutcomes) (promRec : ActiveRec),
      ((executeTestNowRun s fs0 testsRoot resultsRoot req arec oc promRec).2.2).length = 1) ∧
    (∀ req : ExecRequest, s.admittedLog.count req ≤ s.enqueuedLog.count req) := by
  constructor
  · intro fs0 testsRoot resultsRoot req arec oc promRec
    exact executeTestNowRun_settles_once s fs0 testsRoot resultsRoot req arec oc promRec
  · intro req
    exact admitted_count_le_enqueued h req

/-- Witness for C2: exactly one settlement for a concrete failing execution
from the concrete reachable state, and no duplicated admission of the still
queued request. -/
theorem one_settlement_per_admission_witness :
    ((executeTestNowRun demoState [] "tests" "results" demoReq2 demoRec
        demoFailOutcomes demoRec).2.2).length = 1 ∧
    demoState.admittedLog.count demoReq3 ≤ demoState.enqueuedLog.count demoReq3 :=
  ⟨(one_settlement_per_admission demoState_reachable).1 [] "tests" "results"
      demoReq2 demoRec demoFailOutcomes demoRec,
   (one_settlement_per_admission demoState_reachable).2 demoReq3⟩

/-! ## Claim C3 -/

/-- C3: inside the `then` callback of `runTest`, the `spawn` options object
reads `process.env` while the local `const process` being declared by that
very statement is still uninitialized; so whenever dependency installation
succeeds, evaluating the spawn arguments throws a ReferenceError in any
outer environment, the runner child process is never spawned, and the
promise of `runTest` rejects. -/
theorem runtest_tdz_always_rejects (installOutcome : Except String Unit)
    (outer : LexEnv) (executionDir : String) (h : installOutcome = Except.ok ()) :
    runTestModel installOutcome outer executionDir =
      ([], RunPhase.rejectedRun tdzMessage) := by
  subst h
  rfl

/-- Witness for C3: the rejection evaluated with the Node global `process`
in scope and a concrete workspace path. -/
theorem runtest_tdz_always_rejects_witness :
    (Except.ok () : Except String Unit) = Except.ok () ∧
    runTestModel (Except.ok ()) [nodeGlobalScope []] "tests/execution-s1" =
      ([], RunPhase.rejectedRun tdzMessage) :=
  ⟨rfl, runtest_tdz_always_rejects (Except.ok ()) [nodeGlobalScope []]
    "tests/execution-s1" rfl⟩

/-! ## Claim C4 -/

/-- C4: for every runner process exit with exit code `c`, the result built
by the `close` handler has status `passed` iff `c = 0` (else `failed`),
and records the exit code, the start and end timestamps, and the
wall-clock duration. -/
theorem close_handler_result (c : Int) (st et : Nat) (out errOut sid : String) :
    ((closeHandler (some c) st et out errOut sid).1.status = Status.passed ↔ c = 0) ∧
    (closeHandler (some c) st et out errOut sid).1.exitCode = some c ∧
    (closeHandler (some c) st et out errOut sid).1.startTime = st ∧
    (closeHandler (some c) st et out errOut sid).1.endTime = et ∧
    (closeHandler (some c) st et out errOut sid).1.duration = (et : Rat) - (st : Rat) ∧
    (closeHandler (some c) st et out errOut sid).1.status =
      (if c = 0 then Status.passed else Status.failed) := by
  by_cases h : c = 0 <;> simp [closeHandler, h]

/-! ## Claim C5 -/

/-- C5: the catch path of `executeTestNow` (part_003, lines 77-85) never
calls `cleanup`, so an execution whose `runTest` rejects after the
workspace was built leaves the workspace directory behind, while a
successful execution removes it. This contradicts the always-removed
claim (and the intent announced by the `Clean up on error` comment at
line 80). -/
theorem workspace_survives_failed_run :
    executionDirOf "tests" "s1" ∈
      (executeTestNowRun (initState 3) [] "tests" "results"
        { testId := "t1", sessionId := "s1" } demoRec demoFailOutcomes demoRec).2.1 ∧
    executionDirOf "tests" "s1" ∉
      (executeTestNowRun (initState 3) [] "tests" "results"
        { testId := "t1", sessionId := "s1" } demoRec demoOkOutcomes demoRec).2.1 := by
  constructor <;> decide

/-! ## Claim C6 -/

/-- C6 counterexample: a dependency-installation failure (exit code 1) is
reported as a bare rejection — the failing branch of the install `close`
handler broadcasts no event at all, so the claimed "rejection plus a
dedicated error event" does not hold on this path. -/
theorem install_failure_without_error_event :
    (installCloseHandler "s1" 1).1 = [] ∧
    (installCloseHandler "s1" 1).2 =
      Except.error "Dependency installation failed with exit code 1" := by
  constructor <;> rfl

/-- C6 (amended): a runner spawn failure is reported via the dedicated
`test-execution-error` event plus a rejection; a dependency-installation
failure is reported via a rejection with a descriptive error but no
dedicated event; in both cases the run settles as a rejection — never as a
resolved result with status `failed` — and the catch path of
`executeTestNow` still deletes the active-set entry and runs
`processQueue`, so the slot is never leaked. -/
theorem failure_paths_reject_and_free_slot (sid e : String) (c : Int) (hc : c ≠ 0)
    (s : SchedState) (fs0 : List String) (testsRoot resultsRoot : String)
    (req : ExecRequest) (arec promRec : ActiveRec) (oc : ExecOutcomes) (err : String) :
    spawnErrorHandler sid e =
      ([ExecEvent.testExecutionError sid e], RunPhase.rejectedRun e) ∧
    installCloseHandler sid c =
      ([], Except.error ("Dependency installation failed with exit code " ++ toString c)) ∧
    (oc.createEnv = Except.ok () → oc.runTest = Except.error err →
      (executeTestNowRun s fs0 testsRoot resultsRoot req arec oc promRec).1 =
        completeStep { s with activeExecutions := mapSet s.activeExecutions req.sessionId arec }
          req.sessionId promRec ∧
      (executeTestNowRun s fs0 testsRoot resultsRoot req arec oc promRec).2.2 =
        [Settlement.reject err]) ∧
    (oc.createEnv = Except.error err →
      (executeTestNowRun s fs0 testsRoot resultsRoot req arec oc promRec).1 =
        completeStep { s with activeExecutions := mapSet s.activeExecutions req.sessionId arec }
          req.sessionId promRec ∧
      (executeTestNowRun s fs0 testsRoot resultsRoot req arec oc promRec).2.2 =
        [Settlement.reject err]) := by
  refine ⟨rfl, ?_, ?_, ?_⟩
  · unfold installCloseHandler
    simp [hc]
  · intro h1 h2
    unfold executeTestNowRun
    simp only [h1, h2]
    exact ⟨trivial, trivial⟩
  · intro h1
    unfold executeTestNowRun
    simp only [h1]
    exact ⟨trivial, trivial⟩

/-- Witness for C6: the dedicated spawn-error event and, for a concrete
failing install from a concrete state, the rejection settlement. -/
theorem failure_paths_reject_and_free_slot_witness :
    (1 : Int) ≠ 0 ∧
    spawnErrorHandler "s1" "spawn npx ENOENT" =
      ([ExecEvent.testExecutionError "s1" "spawn npx ENOENT"],
        RunPhase.rejectedRun "spawn npx ENOENT") ∧
    (executeTestNowRun (initState 2) [] "tests" "results" demoReq1 demoRec
        demoFailOutcomes demoRec).2.2 =
      [Settlement.reject "Dependency installation failed with exit code 1"] :=
  ⟨by decide,
   (failure_paths_reject_and_free_slot "s1" "spawn npx ENOENT" 1 (by decide)
      (initState 2) [] "tests" "results" demoReq1 demoRec demoRec demoFailOutcomes
      "Dependency installation failed with exit code 1").1,
   ((failure_paths_reject_and_free_slot "s1" "spawn npx ENOENT" 1 (by decide)
      (initState 2) [] "tests" "results" demoReq1 demoRec demoRec demoFailOutcomes
      "Dependency installation failed with exit code 1").2.2.1 rfl rfl).2⟩

/-! ## Helper lemmas: summary tally -/

theorem specTallyOf_nil (c0 : TestCounts) : specTallyOf c0 [] = c0 := rfl

theorem specTallyOf_append (c0 : TestCounts) (a b : List PwTest) :
    specTallyOf (specTallyOf c0 a) b = specTallyOf c0 (a ++ b) := by
  simp [specTallyOf, List.filter_append, Nat.add_assoc]

theorem countTestOne_eq (c : TestCounts) (t : PwTest) :
    countTestOne c t = specTallyOf c [t] := by
  unfold countTestOne specTallyOf
  by_cases h1 : t.outcome = "expected"
  · simp [h1]
  · by_cases h2 : t.outcome = "unexpected"
    · simp [h1, h2]
    · by_cases h3 : t.outcome = "skipped"
      · simp [h1, h2, h3]
      · simp [h1, h2, h3]

theorem foldl_countTestOne (ts : List PwTest) (c0 : TestCounts) :
    ts.foldl countTestOne c0 = specTallyOf c0 ts := by
  induction ts generalizing c0 with
  | nil => simp [specTallyOf_nil]
  | cons t rest ih =>
    rw [List.foldl_cons, countTestOne_eq, ih, specTallyOf_append]
    rfl

theorem foldl_specs_eq (specs : List PwSpec) (c0 : TestCounts) :
    specs.foldl (fun acc sp => sp.tests.foldl countTestOne acc) c0 =
      specTallyOf c0 (specs.map PwSpec.tests).flatten := by
  induction specs generalizing c0 with
  | nil => simp [specTallyOf_nil]
  | cons sp rest ih =>
    rw [List.foldl_cons, foldl_countTestOne, ih, List.map_cons, List.flatten_cons,
      specTallyOf_append]

mutual

theorem countTestResults_eq (suites : List PwSuite) (c0 : TestCounts) :
    countTestResults suites c0 = specTallyOf c0 (leafTestsList suites) :=
  match suites with
  | [] => by
    simp only [countTestResults, leafTestsList, specTallyOf_nil]
  | su :: rest => by
    simp only [countTestResults, leafTestsList]
    rw [countSuiteOne_eq su c0, countTestResults_eq rest _, specTallyOf_append]

theorem countSuiteOne_eq (su : PwSuite) (c0 : TestCounts) :
    countSuiteOne su c0 = specTallyOf c0 (leafTestsOf su) :=
  match su with
  | .mk specs suites => by
    simp only [countSuiteOne, leafTestsOf]
    rw [foldl_specs_eq, countTestResults_eq suites _, specTallyOf_append]

end

/-! ## Claim C7 -/

/-- C7 counterexample: a leaf test with outcome `flaky` (neither the
expected outcome nor unexpected) is counted in `testCount` but in none of
the three buckets, whereas the claim (formalised as `claimTallyOf`) says
any such leaf is counted as skipped. -/
theorem tally_flaky_leaf_not_skipped :
    countTestResults [flakySuite] ⟨0, 0, 0, 0⟩ = ⟨1, 0, 0, 0⟩ ∧
    claimTallyOf ⟨0, 0, 0, 0⟩ (leafTestsList [flakySuite]) = ⟨1, 0, 0, 1⟩ ∧
    countTestResults [flakySuite] ⟨0, 0, 0, 0⟩ ≠
      claimTallyOf ⟨0, 0, 0, 0⟩ (leafTestsList [flakySuite]) := by
  refine ⟨by decide, by decide, by decide⟩

/-- C7 (amended): the tally visits every leaf test of the arbitrarily
nested tree, counting it as passed iff its outcome is `expected`, failed
iff `unexpected`, and skipped iff exactly `skipped` (other outcomes, such
as `flaky`, are counted only in `testCount`); the concrete two-level tree
with three leaves (two expected, one unexpected) yields testCount 3,
passed 2, failed 1, skipped 0; and `avgTestTime` is duration divided by
`testCount`, or 0 when `testCount` is 0. -/
theorem summary_tally_characterization :
    (∀ (suites : List PwSuite) (c0 : TestCounts),
      countTestResults suites c0 = specTallyOf c0 (leafTestsList suites)) ∧
    countTestResults [demoTreeA, demoTreeB] ⟨0, 0, 0, 0⟩ =
      { testCount := 3, passedCount := 2, failedCount := 1, skippedCount := 0 } ∧
    (∀ r : ProcessedResult,
      (generateExecutionSummary r).performance.avgTestTime =
        if (generateExecutionSummary r).counts.testCount > 0
        then r.base.duration / (((generateExecutionSummary r).counts.testCount : Nat) : Rat)
        else 0) :=
  ⟨countTestResults_eq, by decide, fun r => rfl⟩

/-! ## Claim C8 -/

/-- C8 counterexample: when the structured result document exists but
fails to parse, the error is attached as `processingError` and the result
is returned — but the durable write at part_003 line 341 is never reached,
so nothing is persisted, contrary to the claim. -/
theorem processing_error_result_not_persisted :
    (processResults demoRunResult "results" "s1" demoReadFailOutcomes).1.processingError =
      some "Unexpected token o in JSON at position 1" ∧
    (processResults demoRunResult "results" "s1" demoReadFailOutcomes).2 = [] := by
  constructor <;> rfl

/-- C8 (amended): `processResults` never rejects: it always returns the
result object (with the raw run result intact); when any processing step
throws, the error is attached as the non-fatal `processingError` field and
the result is still returned to the caller, but it is not persisted (the
durable write is skipped); the result record is written exactly when no
step threw. -/
theorem processing_error_nonfatal (r : RunResult) (resultsRoot sessionId : String)
    (oc : ProcOutcomes) :
    (processResults r resultsRoot sessionId oc).1.base = r ∧
    ((processResults r resultsRoot sessionId oc).1.processingError ≠ none →
      (processResults r resultsRoot sessionId oc).2 = []) ∧
    ((processResults r resultsRoot sessionId oc).1.processingError = none →
      (processResults r resultsRoot sessionId oc).2 =
        [resultFilePath resultsRoot sessionId]) := by
  unfold processResults
  cases h1 : oc.ensureDir with
  | error e => simp
  | ok u =>
    cases h2 : (if oc.jsonExists then oc.readJson.map some else Except.ok none) with
    | error e => simp
    | ok det =>
      cases h3 : oc.writeResult with
      | error e => simp
      | ok u2 => simp

/-- Witness for C8: the amended behaviour evaluated on the concrete
parse-failure input. -/
theorem processing_error_nonfatal_witness :
    (processResults demoRunResult "results" "s1" demoReadFailOutcomes).1.base =
      demoRunResult ∧
    (processResults demoRunResult "results" "s1" demoReadFailOutcomes).2 = [] :=
  ⟨(processing_error_nonfatal demoRunResult "results" "s1" demoReadFailOutcomes).1,
   (processing_error_nonfatal demoRunResult "results" "s1" demoReadFailOutcomes).2.1
     (by decide)⟩

/-! ## Claim C9 -/

/-- C9 counterexample: with caller-supplied session ids of different
lengths, the renaming rule can collide: sessionId `a` with file `b-x.png`
and sessionId `a-b` with file `x.png` both map to `a-b-x.png`. -/
theorem artifact_names_can_collide :
    ("a" : String) ≠ "a-b" ∧
    artifactTargetName "a" "b-x.png" = artifactTargetName "a-b" "x.png" := by
  constructor
  · decide
  · rfl

/-- C9 (amended): for two executions whose distinct session ids have equal
length (as the uuid-shaped ids used across the system do), the
`sessionId-originalName` renaming rule never produces the same durable
storage name, whatever the original file names. -/
theorem artifact_names_injective (s1 s2 f1 f2 : String)
    (hlen : s1.length = s2.length) (hne : s1 ≠ s2) :
    artifactTargetName s1 f1 ≠ artifactTargetName s2 f2 := by
  intro h
  apply hne
  unfold artifactTargetName at h
  have hd : (s1 ++ "-" ++ f1).data = (s2 ++ "-" ++ f2).data := congrArg String.data h
  rw [String.data_append, String.data_append, String.data_append,
    String.data_append] at hd
  have hlen2 : (s1.data ++ "-".data).length = (s2.data ++ "-".data).length := by
    have e1 : s1.data.length = s1.length := rfl
    have e2 : s2.data.length = s2.length := rfl
    simp [e1, e2, hlen]
  have h12 := (List.append_inj hd hlen2).1
  have hlen1 : s1.data.length = s2.data.length := hlen
  have h3 := (List.append_inj h12 hlen1).1
  exact String.ext h3

/-- Witness for C9: two distinct equal-length session ids with the same
artifact base name map to distinct storage names. -/
theorem artifact_names_injective_witness :
    ("aa" : String).length = ("ab" : String).length ∧ ("aa" : String) ≠ "ab" ∧
    artifactTargetName "aa" "x.png" ≠ artifactTargetName "ab" "x.png" :=
  ⟨rfl, by decide, artifact_names_injective "aa" "ab" "x.png" "x.png" rfl (by decide)⟩

/-! ## Helper lemmas: send paths of `StreamingService` -/

theorem broadcastPass_characterization (reg : List (String × WsConn)) :
    (broadcastPass reg).2 =
      (reg.filter (fun p => liveAndOpen p.2 && p.2.sendOk)).map Prod.fst ∧
    (broadcastPass reg).1 =
      reg.filter (fun p => !(liveAndOpen p.2 && !p.2.sendOk)) := by
  induction reg with
  | nil => exact ⟨rfl, rfl⟩
  | cons p rest ih =>
    obtain ⟨cid, c⟩ := p
    obtain ⟨ih1, ih2⟩ := ih
    by_cases h1 : liveAndOpen c = true
    · by_cases h2 : c.sendOk = true
      · constructor <;> simp [broadcastPass, List.filter_cons, h1, h2, ih1, ih2]
      · constructor <;> simp [broadcastPass, List.filter_cons, h1, h2, ih1, ih2]
    · constructor <;> simp [broadcastPass, List.filter_cons, h1, ih1, ih2]

/-- The one-step equation of `sendToChannelPass` on a subscriber cons. -/
theorem sendToChannelPass_cons (cid : String) (rest : List String)
    (reg : List (String × WsConn)) :
    sendToChannelPass (cid :: rest) reg =
      match reg.find? (fun p => p.1 == cid) with
      | none => sendToChannelPass rest reg
      | some pe =>
        if liveAndOpen pe.2 then
          if pe.2.sendOk then
            ((sendToChannelPass rest reg).1, cid :: (sendToChannelPass rest reg).2)
          else sendToChannelPass rest (reg.filter (fun q => q.1 != cid))
        else sendToChannelPass rest reg := rfl

/-- Removing the entries of one key does not change the lookup of any
other key. -/
theorem find?_key_filter_ne (reg : List (String × WsConn)) (c1 c2 : String)
    (h : c2 ≠ c1) :
    (reg.filter (fun q => q.1 != c1)).find? (fun p => p.1 == c2) =
      reg.find? (fun p => p.1 == c2) := by
  induction reg with
  | nil => rfl
  | cons q tl ih =>
    rw [List.filter_cons]
    by_cases h1 : q.1 = c1
    · have hb : (q.1 != c1) = false := by simp [h1]
      have h2 : ¬((fun r : String × WsConn => r.1 == c2) q = true) := by
        show ¬((q.1 == c2) = true)
        rw [h1]
        simp only [beq_iff_eq]
        exact fun e => h e.symm
      rw [hb, if_neg (by decide),
        @List.find?_cons_of_neg _ (fun r => r.1 == c2) q tl h2, ih]
    · have hb : (q.1 != c1) = true := by simp [h1]
      rw [hb, if_pos rfl]
      by_cases h2 : q.1 = c2
      · have hp : ((fun r : String × WsConn => r.1 == c2) q) = true := by
          show (q.1 == c2) = true
          simp [h2]
        rw [@List.find?_cons_of_pos _ (fun r => r.1 == c2) q
              (tl.filter (fun r => r.1 != c1)) hp,
          @List.find?_cons_of_pos _ (fun r => r.1 == c2) q tl hp]
      · have hp : ¬((fun r : String × WsConn => r.1 == c2) q = true) := by
          show ¬((q.1 == c2) = true)
          simp [h2]
        rw [@List.find?_cons_of_neg _ (fun r => r.1 == c2) q
              (tl.filter (fun r => r.1 != c1)) hp,
          @List.find?_cons_of_neg _ (fun r => r.1 == c2) q tl hp, ih]

/-- In a registry with distinct keys (a `Map`), two entries with the same
key are the same entry. -/
theorem registry_key_unique {reg : List (String × WsConn)}
    (hkeys : (reg.map Prod.fst).Nodup) {p q : String × WsConn}
    (hp : p ∈ reg) (hq : q ∈ reg) (h : p.1 = q.1) : p = q :=
  List.inj_on_of_nodup_map hkeys hp hq h

theorem keys_nodup_filter (reg : List (String × WsConn))
    (hkeys : (reg.map Prod.fst).Nodup) (pred : String × WsConn → Bool) :
    ((reg.filter pred).map Prod.fst).Nodup :=
  List.Nodup.sublist (List.Sublist.map Prod.fst (List.filter_sublist reg)) hkeys

theorem sendToChannelPass_characterization (subs : List String) :
    ∀ reg : List (String × WsConn), subs.Nodup → (reg.map Prod.fst).Nodup →
    (sendToChannelPass subs reg).2 = subs.filter (chanDeliverable reg) ∧
    (sendToChannelPass subs reg).1 = reg.filter (fun p => !(chanPruned subs p)) := by
  induction subs with
  | nil =>
    intro reg _ _
    refine ⟨rfl, ?_⟩
    show reg = reg.filter (fun p => !(chanPruned [] p))
    symm
    rw [List.filter_eq_self]
    intro p _
    simp [chanPruned]
  | cons cid rest ih =>
    intro reg hsub hkeys
    obtain ⟨hnin, hrest⟩ := List.nodup_cons.mp hsub
    cases hf : reg.find? (fun p => p.1 == cid) with
    | none =>
      have hnone : ∀ p ∈ reg, ¬((p.1 == cid) = true) := List.find?_eq_none.mp hf
      obtain ⟨ih1, ih2⟩ := ih reg hrest hkeys
      have hstep : sendToChannelPass (cid :: rest) reg = sendToChannelPass rest reg := by
        rw [sendToChannelPass_cons, hf]
      have hcd : chanDeliverable reg cid = false := by
        unfold chanDeliverable
        simp [hf]
      constructor
      · rw [hstep, ih1, List.filter_cons, hcd]
        simp
      · rw [hstep, ih2]
        apply List.filter_congr
        intro p hp
        have hpc : (p.1 == cid) = false := Bool.eq_false_iff.mpr (hnone p hp)
        show (!(chanPruned rest p)) = (!(chanPruned (cid :: rest) p))
        unfold chanPruned
        rw [List.contains_cons, hpc]
        simp
    | some pe =>
      have hpeq : pe.1 = cid := by
        have := List.find?_some hf
        simpa using this
      have hpmem : pe ∈ reg := List.mem_of_find?_eq_some hf
      by_cases hl : liveAndOpen pe.2 = true
      · by_cases hs : pe.2.sendOk = true
        · obtain ⟨ih1, ih2⟩ := ih reg hrest hkeys
          have hstep : sendToChannelPass (cid :: rest) reg =
              ((sendToChannelPass rest reg).1, cid :: (sendToChannelPass rest reg).2) := by
            rw [sendToChannelPass_cons, hf]
            simp [hl, hs]
          have hcd : chanDeliverable reg cid = true := by
            unfold chanDeliverable
            simp [hf, hl, hs]
          constructor
          · rw [hstep, List.filter_cons, hcd]
            show cid :: (sendToChannelPass rest reg).2 = cid :: rest.filter (chanDeliverable reg)
            rw [ih1]
          · rw [hstep]
            show (sendToChannelPass rest reg).1 = _
            rw [ih2]
            apply List.filter_congr
            intro p hp
            show (!(chanPruned rest p)) = (!(chanPruned (cid :: rest) p))
            by_cases hpc : p.1 = cid
            · have hpe : p = pe := registry_key_unique hkeys hp hpmem (hpc.trans hpeq.symm)
              unfold chanPruned
              rw [List.contains_cons, hpe]
              simp [hs]
            · have hb : (p.1 == cid) = false := by simp [hpc]
              unfold chanPruned
              rw [List.contains_cons, hb]
              simp
        · have hs0 : pe.2.sendOk = false := Bool.eq_false_iff.mpr hs
          have hkeysF : ((reg.filter (fun q => q.1 != cid)).map Prod.fst).Nodup :=
            keys_nodup_filter reg hkeys _
          obtain ⟨ih1, ih2⟩ := ih (reg.filter (fun q => q.1 != cid)) hrest hkeysF
          have hstep : sendToChannelPass (cid :: rest) reg =
              sendToChannelPass rest (reg.filter (fun q => q.1 != cid)) := by
            rw [sendToChannelPass_cons, hf]
            simp [hl, hs0]
          have hcd : chanDeliverable reg cid = false := by
            unfold chanDeliverable
            simp [hf, hs0]
          constructor
          · rw [hstep, ih1, List.filter_cons, hcd]
            simp only [Bool.false_eq_true, if_false]
            apply List.filter_congr
            intro c2 hc2
            have hne : c2 ≠ cid := fun e => hnin (e ▸ hc2)
            show chanDeliverable (reg.filter (fun q => q.1 != cid)) c2 = chanDeliverable reg c2
            unfold chanDeliverable
            rw [find?_key_filter_ne reg cid c2 hne]
          · rw [hstep, ih2, List.filter_filter]
            apply List.filter_congr
            intro p hp
            by_cases hpc : p.1 = cid
            · have hpe : p = pe := registry_key_unique hkeys hp hpmem (hpc.trans hpeq.symm)
              unfold chanPruned
              rw [List.contains_cons, hpe]
              simp [hpeq, hl, hs0]
            · have hb : (p.1 == cid) = false := by simp [hpc]
              have hb2 : (p.1 != cid) = true := by simp [hpc]
              unfold chanPruned
              rw [List.contains_cons, hb, hb2]
              simp
      · have hl0 : liveAndOpen pe.2 = false := Bool.eq_false_iff.mpr hl
        obtain ⟨ih1, ih2⟩ := ih reg hrest hkeys
        have hstep : sendToChannelPass (cid :: rest) reg = sendToChannelPass rest reg := by
          rw [sendToChannelPass_cons, hf]
          simp [hl0]
        have hcd : chanDeliverable reg cid = false := by
          unfold chanDeliverable
          simp [hf, hl0]
        constructor
        · rw [hstep, ih1, List.filter_cons, hcd]
          simp
        · rw [hstep, ih2]
          apply List.filter_congr
          intro p hp
          show (!(chanPruned rest p)) = (!(chanPruned (cid :: rest) p))
          by_cases hpc : p.1 = cid
          · have hpe : p = pe := registry_key_unique hkeys hp hpmem (hpc.trans hpeq.symm)
            unfold chanPruned
            rw [List.contains_cons, hpe]
            simp [hl0]
          · have hb : (p.1 == cid) = false := by simp [hpc]
            unfold chanPruned
            rw [List.contains_cons, hb]
            simp

/-! ## Claim C10 -/

/-- C10 counterexample: a connection whose transport is gone
(`readyState` 3) is skipped both by `broadcast` and by a channel send — the
event is dropped for it — but it is not pruned from the registry in either
path (pruning happens only when the send call throws), while the live
connection still receives the event. -/
theorem gone_connection_not_pruned :
    (broadcastPass demoRegistry).2 = ["c2"] ∧
    ("c1", goneConn) ∈ (broadcastPass demoRegistry).1 ∧
    (sendToChannelPass ["c1", "c2"] demoRegistry).2 = ["c2"] ∧
    ("c1", goneConn) ∈ (sendToChannelPass ["c1", "c2"] demoRegistry).1 := by
  refine ⟨by decide, by decide, by decide, by decide⟩

/-- C10 (amended): over any registry state, both `broadcast` and a channel
send deliver exactly to the connections that are marked connected, have an
open transport, and whose send succeeds (for a channel send, among the
channel's subscribers); a connection whose send throws is dropped and
pruned from the registry (alone); a connection that is gone (not open or
marked disconnected, or for a channel send no longer in the registry) is
skipped — the event silently dropped for it — but remains in the registry;
every other live connection still receives the event, and a send to a
channel with no subscriber set delivers nothing and changes nothing. -/
theorem send_paths_delivery_characterization (subs : List String)
    (reg : List (String × WsConn)) (hsub : subs.Nodup)
    (hkeys : (reg.map Prod.fst).Nodup) :
    (broadcastPass reg).2 =
      (reg.filter (fun p => liveAndOpen p.2 && p.2.sendOk)).map Prod.fst ∧
    (broadcastPass reg).1 =
      reg.filter (fun p => !(liveAndOpen p.2 && !p.2.sendOk)) ∧
    (sendToChannelPass subs reg).2 = subs.filter (chanDeliverable reg) ∧
    (sendToChannelPass subs reg).1 = reg.filter (fun p => !(chanPruned subs p)) ∧
    (∀ (subscriptions : List (String × List String)) (channel : String),
      subscriptions.find? (fun q => q.1 == channel) = none →
      sendToChannel subscriptions channel reg = (reg, [])) := by
  obtain ⟨hb1, hb2⟩ := broadcastPass_characterization reg
  obtain ⟨hc1, hc2⟩ := sendToChannelPass_characterization subs reg hsub hkeys
  refine ⟨hb1, hb2, hc1, hc2, ?_⟩
  intro subscriptions channel hchan
  unfold sendToChannel
  simp [hchan]

/-- Witness for C10: the characterization applied to the concrete
two-connection registry with both connections subscribed, and to a channel
with no subscriber set. -/
theorem send_paths_delivery_characterization_witness :
    (sendToChannelPass ["c1", "c2"] demoRegistry).2 =
      (["c1", "c2"].filter (chanDeliverable demoRegistry)) ∧
    (sendToChannelPass ["c1", "c2"] demoRegistry).1 =
      demoRegistry.filter (fun p => !(chanPruned ["c1", "c2"] p)) ∧
    sendToChannel [] "analytics" demoRegistry = (demoRegistry, []) :=
  ⟨(send_paths_delivery_characterization ["c1", "c2"] demoRegistry
      (by decide) (by decide)).2.2.1,
   (send_paths_delivery_characterization ["c1", "c2"] demoRegistry
      (by decide) (by decide)).2.2.2.1,
   (send_paths_delivery_characterization ["c1", "c2"] demoRegistry
      (by decide) (by decide)).2.2.2.2 [] "analytics" rfl⟩

end Saint
